import Mathlib

/-!
Verification of the twitter_scheduler repository (`src/scheduler.py`).

This file shallowly embeds the decision logic of `scheduler.py`:

* `collectFeed` / `get_feed_result`  — the item-selection loop and the
  engagement sort of `get_feed` (lines 87-104);
* `splitOnChar`, `keepSeg`, `get_clicky_filter` — the URL filter of
  `get_clicky` (lines 147-153), with the possible `IndexError` made
  explicit via `Except`;
* `check_posted` — the dedup filter (lines 305-332);
* `mkPostingTimesAux` / `get_posting_times` — the time-slot generator
  (lines 272-302), with the `datetime` hour-range `ValueError` made
  explicit via `Option`;
* `schedule_buffer` — the post scheduler (lines 196-249) up to (and
  excluding) its one network call, with Python `assert` failures and
  `NotImplementedError` as explicit outcomes;
* `splitLinesAux` / `loadPosted` / `writePosted` — the flat-file history
  persistence (`posted.txt` read at lines 370-371, written at 403-406),
  file contents modelled as `List Char`;
* `scheduleLoop` / `mainRun` — the zero-argument path of `main`
  (lines 346-410) as a function from an explicit `World` (config, file
  contents, API responses, randomness, the shuffle, per-call scheduling
  responses) to a final outcome plus the number of network calls made.

Machine-level details that the claims do not touch (HTTP plumbing, the
unused `scrape_clicky`, the `streams` command-line path, `time.sleep`)
are not modelled.
-/

/-- One item of the Feedly stream response (`response['items'][i]`):
`title`, `originId` (used as the URL), optional `engagement`
(`i.get('engagement', 0)`), optional `published` in epoch milliseconds.
`published = some 0` is kept distinct from `none` because Python's
`if not published` treats both as falsy. -/
structure FeedItem where
  title : String
  originId : String
  engagement : Option Nat
  published : Option Int
deriving DecidableEq, Repr

/-- The `Article` namedtuple of scheduler.py line 22. -/
structure Article where
  title : String
  url : String
  engagement : Nat
  published : Int
deriving DecidableEq, Repr

/-- The `CArticle` namedtuple of scheduler.py line 23. -/
structure CArticle where
  title : String
  url : String
deriving DecidableEq, Repr

/-- One item of the Clicky response bucket
(`response[0]['dates'][0]['items'][i]`): a `title` and a `url`. -/
structure CItem where
  title : String
  url : String
deriving DecidableEq, Repr

/-- A schedulable post as used in `main`'s pairing loop: both `Article`
and `CArticle` expose `.title` and `.url`, which is all the loop reads. -/
structure Post where
  title : String
  url : String
deriving DecidableEq, Repr

/-- The item-selection loop of `get_feed` (lines 89-100): skip items with
a falsy `published`; stop (`break`) at the first item whose age in whole
days — `(now - datetime.utcfromtimestamp(published/1000)).days`, floor
division of the millisecond difference by 86400000 — equals `time_delta`;
otherwise collect `(title, originId, engagement or 0, published)`.
`nowMs` is `datetime.utcnow()` in epoch milliseconds. -/
def collectFeed (nowMs timeDelta : Int) : List FeedItem → List Article
  | [] => []
  | i :: rest =>
    match i.published with
    | none => collectFeed nowMs timeDelta rest
    | some p =>
      if p = 0 then collectFeed nowMs timeDelta rest
      else if (nowMs - p).fdiv 86400000 = timeDelta then []
      else
        { title := i.title, url := i.originId,
          engagement := i.engagement.getD 0, published := p }
          :: collectFeed nowMs timeDelta rest

/-- Stable descending insertion by engagement: the inserted article goes
after every article with engagement ≥ its own, matching the stability of
Python's `list.sort(key=..., reverse=True)`. -/
def insertByEngagement (a : Article) : List Article → List Article
  | [] => [a]
  | b :: rest =>
    if b.engagement < a.engagement then a :: b :: rest
    else b :: insertByEngagement a rest

/-- Embeds `articles.sort(key=lambda f: f.engagement, reverse=True)`
(line 102): a stable sort by engagement descending. -/
def sortByEngagement (l : List Article) : List Article :=
  l.foldl (fun acc a => insertByEngagement a acc) []

/-- Embeds `get_feed` (lines 45-104) after a successful fetch: run the selection
loop over the response items, then sort by engagement descending. -/
def get_feed_result (nowMs timeDelta : Int) (items : List FeedItem) : List Article :=
  sortByEngagement (collectFeed nowMs timeDelta items)

/-- Python `str.split(sep)` for a one-character separator: splits on every
occurrence of `sep`, keeping empty segments; the empty input yields one
empty segment, as `''.split('/') == ['']` does. -/
def splitOnChar (sep : Char) : List Char → List (List Char)
  | [] => [[]]
  | c :: rest =>
    if c = sep then [] :: splitOnChar sep rest
    else
      match splitOnChar sep rest with
      | [] => [[c]]
      | l :: ls => (c :: l) :: ls

/-- The per-item test of `get_clicky` (line 149-150):
`url = i['url'].split('/')`, then `url[3] == 'news' and len(url) > 4`.
Python evaluates `url[3]` first, so a URL with fewer than four segments
raises `IndexError` (`.error ()`) before the length guard is reached. -/
def keepSeg (url : String) : Except Unit Bool :=
  match (splitOnChar '/' url.data)[3]? with
  | none => .error ()
  | some seg =>
    .ok (seg == "news".data && decide (4 < (splitOnChar '/' url.data).length))

/-- The filtering loop of `get_clicky` (lines 147-153) over the response
items: keep `(title, url)` of each accepted item; an `IndexError` on any
item aborts the whole call. -/
def get_clicky_filter : List CItem → Except Unit (List CArticle)
  | [] => .ok []
  | i :: rest =>
    match keepSeg i.url with
    | .error e => .error e
    | .ok true => (get_clicky_filter rest).map (CArticle.mk i.title i.url :: ·)
    | .ok false => get_clicky_filter rest

/-- Embeds `check_posted` (lines 305-332), generic over the article type the way
Python duck-typing is: walk `source` in order, skip items whose URL is in
`posted`, stop once `count` items were accepted. -/
def check_posted {α : Type} (urlOf : α → String) : List α → Nat → List String → List α
  | [], _, _ => []
  | i :: rest, count, posted =>
    if count = 0 then []
    else if urlOf i ∈ posted then check_posted urlOf rest count posted
    else i :: check_posted urlOf rest (count - 1) posted

/-- The loop of `get_posting_times` (lines 291-299) with the two
`randint(1,59)` draws of retained slot number `k` given by `rand k`.
`h` is the current UTC hour, `dayBase` the epoch second of today's UTC
midnight, so `calendar.timegm(datetime(y,m,d,hour,mi,se).timetuple())`
is `dayBase + hour*3600 + mi*60 + se`.  A bumped or configured hour
above 23 makes the `datetime` constructor raise `ValueError`, modelled
as `none`. -/
def mkPostingTimesAux (h dayBase : Nat) (rand : Nat → Nat × Nat) :
    List Nat → Nat → Option (List Nat)
  | [], _ => some []
  | hour :: rest, k =>
    if h > hour then mkPostingTimesAux h dayBase rand rest k
    else
      let hour' := if h = hour then hour + 1 else hour
      if hour' ≤ 23 then
        match mkPostingTimesAux h dayBase rand rest (k + 1) with
        | none => none
        | some ts =>
          some ((dayBase + hour' * 3600 + (rand k).1 * 60 + (rand k).2) :: ts)
      else none

/-- Embeds `get_posting_times` (lines 272-302). -/
def get_posting_times (postingHrs : List Nat) (h dayBase : Nat)
    (rand : Nat → Nat × Nat) : Option (List Nat) :=
  mkPostingTimesAux h dayBase rand postingHrs 0

/-- The hour-of-day component of a UTC epoch timestamp. -/
def hourOf (t : Nat) : Nat := t % 86400 / 3600

/-- The number of characters of Python `str(n)` for an integer `n`:
the decimal digits, plus one for the minus sign when negative. -/
def pyStrLen (n : Int) : Nat :=
  if 0 ≤ n then (Nat.toDigits 10 n.toNat).length
  else (Nat.toDigits 10 (-n).toNat).length + 1

/-- The `profile` argument of `schedule_buffer`: a Python `str` or `list`. -/
inductive ProfileArg
  | str (s : String)
  | list (l : List String)
deriving DecidableEq, Repr

/-- The `scheduled` argument of `schedule_buffer`: a Python `int` or `str`. -/
inductive SchedArg
  | int (n : Int)
  | str (s : String)
deriving DecidableEq, Repr

/-- The POST payload `schedule_buffer` would send to Buffer: profile id,
text, and either `now = True` or a `scheduled_at` timestamp. -/
structure SBPayload where
  profileId : String
  text : String
  now : Bool
  scheduledAt : Option Int
deriving DecidableEq, Repr

/-- How a `schedule_buffer` call ends, up to its single network call. -/
inductive SBResult
  | notImpl (msg : String)
  | assertFail
  | call (payload : SBPayload)
deriving DecidableEq, Repr

/-- Embeds `schedule_buffer` (lines 196-248) up to the network call.
`profiles` is `config['buffer']['profiles']`.  A `list` profile raises
`NotImplementedError` (line 220); a `str` profile must be `twitter` or
`linkedin` (line 217).  Python's `if not scheduled` (line 238) treats the
int `0` and the empty string as falsy and requests immediate posting; a
truthy string raises `NotImplementedError` (line 242); a truthy int must
satisfy `len(str(scheduled)) == 10` (line 244). -/
def schedule_buffer (profiles : String → String) (statusText : String)
    (profile : ProfileArg) (scheduled : SchedArg) : SBResult :=
  match profile with
  | .list _ => .notImpl ""
  | .str s =>
    if s = "twitter" ∨ s = "linkedin" then
      let pid := profiles s
      match scheduled with
      | .int n =>
        if n = 0 then .call ⟨pid, statusText, true, none⟩
        else if pyStrLen n = 10 then .call ⟨pid, statusText, false, some n⟩
        else .assertFail
      | .str t =>
        if t = "" then .call ⟨pid, statusText, true, none⟩
        else .notImpl "Please use a timestamp"
    else .assertFail

/-- Python `f.readlines()` on a file content, where each returned line
is later stripped anyway so the trailing newline is not kept: split at
every newline; a final newline does not open an extra empty line. -/
def splitLinesAux (acc : List Char) : List Char → List (List Char)
  | [] => if acc = [] then [] else [acc]
  | c :: rest =>
    if c = '\n' then acc :: splitLinesAux [] rest
    else splitLinesAux (acc ++ [c]) rest

/-- The lines of a file content. -/
def splitLines (content : List Char) : List (List Char) :=
  splitLinesAux [] content

/-- Python `str.strip()`: drop whitespace from both ends. -/
def trimChars (cs : List Char) : List Char :=
  ((cs.dropWhile Char.isWhitespace).reverse.dropWhile Char.isWhitespace).reverse

/-- Loading `posted.txt` (lines 370-371):
`[i.strip() for i in f.readlines()]`. -/
def loadPosted (content : List Char) : List String :=
  (splitLines content).map (fun l => String.mk (trimChars l))

/-- Writing `posted.txt` (lines 404-406): `f.write(f"{i}\n")` for each
URL in order. -/
def writePosted (posted : List String) : List Char :=
  (posted.map (fun u => u.data ++ ['\n'])).flatten

/-- A URL that survives the line-oriented file format: no embedded
newline and no leading/trailing whitespace (so `strip` is the identity). -/
def goodUrl (u : String) : Prop :=
  '\n' ∉ u.data ∧ trimChars u.data = u.data

/-- How the zero-argument run of `main` (lines 346-410) ends. -/
inductive RunOutcome
  | alreadyRan
  | configAssertFailed
  | fetchError
  | clickyIndexError
  | postingTimeError
  | notImplCrash
  | schedAssertFailed
  | indexError
  | completed (finalPosted : List String) (fileContent : List Char) (newMarker : String)
deriving DecidableEq, Repr

/-- All inputs a run of `main` depends on: configuration, the two state
files, what each `datetime.utcnow()` call observes, the two API
responses, the random draws, the shuffle, the Buffer profile table, and
the success flag of each scheduling response. -/
structure World where
  postingHours : List Nat
  feedlyCount : Nat
  clickyCount : Nat
  markerFile : String
  todayStr : String
  feedItems : List FeedItem
  clickyItems : List CItem
  postedFile : List Char
  nowMs : Int
  hour : Nat
  dayBase : Nat
  rand : Nat → Nat × Nat
  shuffle : List Post → List Post
  profiles : String → String
  schedResponses : Nat → Bool

/-- An `Article` as seen by `main`'s pairing loop. -/
def articleToPost (a : Article) : Post := ⟨a.title, a.url⟩

/-- A `CArticle` as seen by `main`'s pairing loop. -/
def cArticleToPost (a : CArticle) : Post := ⟨a.title, a.url⟩

/-- The scheduling loop of `main` (lines 384-401) followed by the two
file writes (lines 403-410).  Iteration `idx` reads
`to_schedule[index]` — `IndexError` when out of range — then calls
`schedule_buffer(f"{title} {url}", 'twitter', scheduled=i)`; on a
successful response the URL is appended to the in-memory `posted`.
`calls` counts network calls made so far; each scheduling call adds one. -/
def scheduleLoop (profiles : String → String) (sched : Nat → Bool)
    (todayStr : String) (toSchedule : List Post) :
    List Int → Nat → List String → Nat → RunOutcome × Nat
  | [], _, posted, calls =>
    (.completed posted (writePosted posted) todayStr, calls)
  | slot :: rest, idx, posted, calls =>
    match toSchedule[idx]? with
    | none => (.indexError, calls)
    | some post =>
      match schedule_buffer profiles (post.title ++ " " ++ post.url)
          (.str "twitter") (.int slot) with
      | .notImpl _ => (.notImplCrash, calls)
      | .assertFail => (.schedAssertFailed, calls)
      | .call _ =>
        scheduleLoop profiles sched todayStr toSchedule rest (idx + 1)
          (if sched idx then posted ++ [post.url] else posted) (calls + 1)

/-- The zero-argument path of `main` (lines 346-410).  In order: the
run-marker check (lines 350-355); the posting-hours/article-count assert
(line 363); `get_feed()` — one network call, an empty `items` array is
the fatal fetch error of lines 75-83; `get_clicky()` — one network call,
its filter may raise `IndexError`; loading `posted.txt`; the two
`check_posted` calls; `get_posting_times()`; concatenation and
`shuffle`; the scheduling loop.  The second component counts network
calls made. -/
def mainRun (w : World) : RunOutcome × Nat :=
  if w.markerFile = w.todayStr then (.alreadyRan, 0)
  else if w.postingHours.length = w.feedlyCount + w.clickyCount then
    if w.feedItems.isEmpty then (.fetchError, 1)
    else
      let feedly := get_feed_result w.nowMs 1 w.feedItems
      match get_clicky_filter w.clickyItems with
      | .error _ => (.clickyIndexError, 2)
      | .ok clicky =>
        let posted := loadPosted w.postedFile
        let feedlyUrls := check_posted Article.url feedly w.feedlyCount posted
        let clickyUrls := check_posted CArticle.url clicky w.clickyCount posted
        match get_posting_times w.postingHours w.hour w.dayBase w.rand with
        | none => (.postingTimeError, 2)
        | some slots =>
          let toSchedule :=
            w.shuffle (feedlyUrls.map articleToPost ++ clickyUrls.map cArticleToPost)
          scheduleLoop w.profiles w.schedResponses w.todayStr toSchedule
            (slots.map Int.ofNat) 0 posted 2
  else (.configAssertFailed, 0)

/-- The keep-condition of the analytics filter as the spec states it
(§4.3): the URL's segment at index 3 equals "news" and the URL has more
than four segments.  Stated for URLs with at least four segments; used to
compare `get_clicky_filter` against the spec's words. -/
def newsKeep (i : CItem) : Bool :=
  ((splitOnChar '/' i.url.data)[3]?.getD [] == "news".data) &&
    decide (4 < (splitOnChar '/' i.url.data).length)

/-- A concrete run for C1: two posting hours but only one schedulable
candidate (one fresh Feedly article, an empty Clicky bucket, empty
history), so the two generated slots exceed the single candidate. -/
def W1crash : World where
  postingHours := [10, 11]
  feedlyCount := 1
  clickyCount := 1
  markerFile := "2026-10-11"
  todayStr := "2026-10-12"
  feedItems := [⟨"a", "u1", some 1, some 1760300000000⟩]
  clickyItems := []
  postedFile := []
  nowMs := 1760300000000
  hour := 0
  dayBase := 1760227200
  rand := fun _ => (30, 30)
  shuffle := id
  profiles := fun _ => "pid"
  schedResponses := fun _ => true

/-- A concrete run for the C6 witness: zero posting hours but one
requested article. -/
def W6bad : World where
  postingHours := []
  feedlyCount := 1
  clickyCount := 0
  markerFile := "2026-10-11"
  todayStr := "2026-10-12"
  feedItems := []
  clickyItems := []
  postedFile := []
  nowMs := 0
  hour := 0
  dayBase := 0
  rand := fun _ => (1, 1)
  shuffle := id
  profiles := fun _ => "pid"
  schedResponses := fun _ => true

/-- A concrete run for C7 whose marker file already holds today's date. -/
def W7aMarker : World where
  postingHours := [10]
  feedlyCount := 1
  clickyCount := 0
  markerFile := "2026-10-12"
  todayStr := "2026-10-12"
  feedItems := []
  clickyItems := []
  postedFile := []
  nowMs := 0
  hour := 0
  dayBase := 0
  rand := fun _ => (1, 1)
  shuffle := id
  profiles := fun _ => "pid"
  schedResponses := fun _ => true

/-- A concrete run for the C7 counterexample: the marker does not match
today, and the Feedly response has no items, so the run makes its fetch
call and then dies without persisting anything. -/
def W7fFail : World where
  postingHours := [10]
  feedlyCount := 1
  clickyCount := 0
  markerFile := "2026-10-11"
  todayStr := "2026-10-12"
  feedItems := []
  clickyItems := []
  postedFile := []
  nowMs := 0
  hour := 0
  dayBase := 0
  rand := fun _ => (1, 1)
  shuffle := id
  profiles := fun _ => "pid"
  schedResponses := fun _ => true

/-- A concrete run for C7 that completes a full cycle: one posting hour,
one fresh article, a successful scheduling response. -/
def W7run : World where
  postingHours := [10]
  feedlyCount := 1
  clickyCount := 0
  markerFile := "2026-10-11"
  todayStr := "2026-10-12"
  feedItems := [⟨"a", "u1", some 1, some 1760300000000⟩]
  clickyItems := []
  postedFile := []
  nowMs := 1760300000000
  hour := 0
  dayBase := 1760227200
  rand := fun _ => (30, 30)
  shuffle := id
  profiles := fun _ => "pid"
  schedResponses := fun _ => true

/-- The world of the run after `W7run`: the marker file now holds the
date `W7run` wrote into it. -/
def W7next : World where
  postingHours := [10]
  feedlyCount := 1
  clickyCount := 0
  markerFile := "2026-10-12"
  todayStr := "2026-10-12"
  feedItems := [⟨"a", "u2", some 1, some 1760300000000⟩]
  clickyItems := []
  postedFile := ['u', '1', '\n']
  nowMs := 1760300000000
  hour := 0
  dayBase := 1760227200
  rand := fun _ => (30, 30)
  shuffle := id
  profiles := fun _ => "pid"
  schedResponses := fun _ => true

/-- A concrete run for the C8 witness, identical in shape to `W7run`:
it completes with final history `["u1"]`. -/
def W8run : World where
  postingHours := [10]
  feedlyCount := 1
  clickyCount := 0
  markerFile := "2026-10-11"
  todayStr := "2026-10-12"
  feedItems := [⟨"a", "u1", some 1, some 1760300000000⟩]
  clickyItems := []
  postedFile := []
  nowMs := 1760300000000
  hour := 0
  dayBase := 1760227200
  rand := fun _ => (30, 30)
  shuffle := id
  profiles := fun _ => "pid"
  schedResponses := fun _ => true

/-- No article returned by `check_posted` has a URL in `posted`. -/
theorem check_posted_not_mem {α : Type} (urlOf : α → String) :
    ∀ (src : List α) (count : Nat) (posted : List String) (a : α),
      a ∈ check_posted urlOf src count posted → urlOf a ∉ posted := by
  intro src
  induction src with
  | nil => intro count posted a ha; simp [check_posted] at ha
  | cons i rest ih =>
    intro count posted a ha
    rw [check_posted] at ha
    by_cases hc : count = 0
    · simp [hc] at ha
    · rw [if_neg hc] at ha
      by_cases hp : urlOf i ∈ posted
      · rw [if_pos hp] at ha
        exact ih count posted a ha
      · rw [if_neg hp] at ha
        rcases List.mem_cons.mp ha with rfl | h2
        · exact hp
        · exact ih (count - 1) posted a h2

/-- The filter `check_posted` returns at most `count` articles. -/
theorem check_posted_length {α : Type} (urlOf : α → String) :
    ∀ (src : List α) (count : Nat) (posted : List String),
      (check_posted urlOf src count posted).length ≤ count := by
  intro src
  induction src with
  | nil => intro count posted; simp [check_posted]
  | cons i rest ih =>
    intro count posted
    rw [check_posted]
    by_cases hc : count = 0
    · simp [hc]
    · rw [if_neg hc]
      by_cases hp : urlOf i ∈ posted
      · rw [if_pos hp]; exact ih count posted
      · rw [if_neg hp]
        simp only [List.length_cons]
        have := ih (count - 1) posted
        omega

/-- The filter `check_posted` returns a subsequence of its input. -/
theorem check_posted_sublist {α : Type} (urlOf : α → String) :
    ∀ (src : List α) (count : Nat) (posted : List String),
      List.Sublist (check_posted urlOf src count posted) src := by
  intro src
  induction src with
  | nil => intro count posted; simp [check_posted]
  | cons i rest ih =>
    intro count posted
    rw [check_posted]
    by_cases hc : count = 0
    · simp [hc]
    · rw [if_neg hc]
      by_cases hp : urlOf i ∈ posted
      · rw [if_pos hp]; exact (ih count posted).cons i
      · rw [if_neg hp]; exact (ih (count - 1) posted).cons₂ i

/-- C2: for every candidate sequence, target count and history list, the
dedup filter `check_posted` returns a list containing no URL present in
the history, of length at most the target count, and which is a
subsequence (order-preserving selection) of the input. -/
theorem c2_dedup_filter_spec :
    ∀ (α : Type) (urlOf : α → String) (src : List α) (count : Nat)
      (posted : List String),
      (∀ a ∈ check_posted urlOf src count posted, urlOf a ∉ posted) ∧
      (check_posted urlOf src count posted).length ≤ count ∧
      List.Sublist (check_posted urlOf src count posted) src :=
  fun _ urlOf src count posted =>
    ⟨fun a ha => check_posted_not_mem urlOf src count posted a ha,
     check_posted_length urlOf src count posted,
     check_posted_sublist urlOf src count posted⟩

/-- Witness for C2 at a concrete input: a one-article source against a
disjoint one-URL history. -/
theorem c2_dedup_filter_witness :
    Post.url (Post.mk "t" "a") ∉ ["b"] ∧
    (check_posted Post.url [Post.mk "t" "a"] 1 ["b"]).length ≤ 1 ∧
    List.Sublist (check_posted Post.url [Post.mk "t" "a"] 1 ["b"])
      [Post.mk "t" "a"] := by
  have h := c2_dedup_filter_spec Post Post.url [Post.mk "t" "a"] 1 ["b"]
  exact ⟨h.1 (Post.mk "t" "a") (by decide), h.2.1, h.2.2⟩

/-- C5: the feed fetcher skips items without a publish timestamp; it
stops at the first item whose age in whole days equals the lookback
window, excluding that item and all following ones; on a response of
three items aged 0 days with engagements [5,10,2] and lookback 1 it
returns all three sorted by engagement as [10,5,2]; an item aged exactly
one day is excluded. -/
theorem c5_feed_fetcher_spec :
    (∀ (nowMs timeDelta : Int) (i : FeedItem) (rest : List FeedItem),
        i.published = none →
        collectFeed nowMs timeDelta (i :: rest) = collectFeed nowMs timeDelta rest) ∧
    (∀ (nowMs timeDelta : Int) (i : FeedItem) (rest : List FeedItem) (p : Int),
        i.published = some p → p ≠ 0 →
        (nowMs - p).fdiv 86400000 = timeDelta →
        collectFeed nowMs timeDelta (i :: rest) = []) ∧
    get_feed_result 1700000000000 1
      [⟨"a", "ua", some 5, some 1700000000000⟩,
       ⟨"b", "ub", some 10, some 1700000000000⟩,
       ⟨"c", "uc", some 2, some 1700000000000⟩] =
      [⟨"b", "ub", 10, 1700000000000⟩,
       ⟨"a", "ua", 5, 1700000000000⟩,
       ⟨"c", "uc", 2, 1700000000000⟩] ∧
    get_feed_result 1700000000000 1
      [⟨"d", "ud", some 7, some (1700000000000 - 86400000)⟩] = [] := by
  refine ⟨?_, ?_, by decide, by decide⟩
  · intro nowMs timeDelta i rest h
    rw [collectFeed, h]
  · intro nowMs timeDelta i rest p hp hp0 hd
    rw [collectFeed, hp]
    simp only [if_neg hp0, if_pos hd]

/-- Witness for C5 at concrete inputs: an item published exactly one day
before `now` stops the collection, and an item without a timestamp is
skipped. -/
theorem c5_feed_fetcher_witness :
    collectFeed 86400100 1 [FeedItem.mk "x" "ux" (some 1) (some 100)] = [] ∧
    collectFeed 0 1 [FeedItem.mk "y" "uy" (some 1) none] = collectFeed 0 1 [] := by
  refine ⟨?_, ?_⟩
  · exact c5_feed_fetcher_spec.2.1 86400100 1
      (FeedItem.mk "x" "ux" (some 1) (some 100)) [] 100 rfl (by decide) (by decide)
  · exact c5_feed_fetcher_spec.1 0 1 (FeedItem.mk "y" "uy" (some 1) none) [] rfl

/-- C10: an analytics item whose URL splits into fewer than four segments
(here `/site/news`, three segments) makes `get_clicky` raise an
index-out-of-range error instead of rejecting the item, because the
segment at index 3 is read before the segment count is checked. -/
theorem c10_clicky_short_url_crash :
    (splitOnChar '/' "/site/news".data).length < 4 ∧
    get_clicky_filter [CItem.mk "t" "/site/news"] = .error () :=
  ⟨by decide, rfl⟩

/-- Counterexample for C4: the item with URL `/site/news/my-article` is
not kept by the analytics filter — its segment at index 3 is
`my-article`, not `news`, so `get_clicky_filter` returns the empty list
rather than keeping it as the claim states. -/
theorem c4_clicky_filter_counterexample :
    get_clicky_filter [CItem.mk "t" "/site/news/my-article"] = .ok [] ∧
    ([] : List CArticle) ≠ [CArticle.mk "t" "/site/news/my-article"] :=
  ⟨rfl, by decide⟩

/-- On responses whose URLs all have at least four segments (so no
`IndexError` fires), the analytics filter keeps exactly the items
satisfying the spec's keep-condition, in response order. -/
theorem get_clicky_filter_keeps_exactly :
    ∀ items : List CItem,
      (∀ i ∈ items, 4 ≤ (splitOnChar '/' i.url.data).length) →
      get_clicky_filter items =
        .ok ((items.filter newsKeep).map (fun i => CArticle.mk i.title i.url)) := by
  intro items
  induction items with
  | nil => intro _; rfl
  | cons i rest ih =>
    intro hall
    have hi : 4 ≤ (splitOnChar '/' i.url.data).length :=
      hall i (List.mem_cons_self i rest)
    have h3 : 3 < (splitOnChar '/' i.url.data).length := by omega
    have hsome : (splitOnChar '/' i.url.data)[3]? =
        some ((splitOnChar '/' i.url.data)[3]) := List.getElem?_eq_getElem h3
    have hrest := ih (fun j hj => hall j (List.mem_cons_of_mem i hj))
    have hks : keepSeg i.url = .ok (newsKeep i) := by
      rw [keepSeg, hsome, newsKeep, hsome]
      rfl
    cases hb : newsKeep i with
    | true =>
      rw [get_clicky_filter, hks, hb]
      simp only [hrest, Except.map, List.filter_cons, hb, if_pos, List.map_cons]
    | false =>
      rw [get_clicky_filter, hks, hb]
      simp only [hrest, List.filter_cons, hb]
      rfl

/-- C4 (amended): the analytics filter keeps exactly the items whose URL
split on '/' has the segment at index 3 equal to "news" and more than
four segments total, provided every URL splits into at least four
segments; the item with URL `/site/news/my-article` is rejected (its
index-3 segment is the slug), `/site/other/x` is rejected, `/site/news`
raises an index error rather than being rejected, while a full URL such
as `http://host/news/my-article` is kept. -/
theorem c4_clicky_filter_amended :
    (∀ items : List CItem,
      (∀ i ∈ items, 4 ≤ (splitOnChar '/' i.url.data).length) →
      get_clicky_filter items =
        .ok ((items.filter newsKeep).map (fun i => CArticle.mk i.title i.url))) ∧
    keepSeg "/site/news/my-article" = .ok false ∧
    keepSeg "/site/other/x" = .ok false ∧
    keepSeg "/site/news" = .error () ∧
    keepSeg "http://host/news/my-article" = .ok true :=
  ⟨get_clicky_filter_keeps_exactly, rfl, rfl, rfl, rfl⟩

/-- Witness for C4 at a concrete response: of two four-plus-segment
URLs, exactly the one with "news" at index 3 and a slug is kept. -/
theorem c4_clicky_filter_witness :
    get_clicky_filter
      [CItem.mk "a" "http://host/news/slug", CItem.mk "b" "http://host/other/x"] =
      .ok [CArticle.mk "a" "http://host/news/slug"] := by
  have h := c4_clicky_filter_amended.1
    [CItem.mk "a" "http://host/news/slug", CItem.mk "b" "http://host/other/x"]
    (by decide)
  rw [h]
  rfl

/-- Counterexample for C9: the integer timestamp 0 has a one-digit
decimal representation, yet `schedule_buffer` does not fail — Python's
`if not scheduled` treats 0 as "no timestamp" and the call proceeds to
the network request as an immediate post. -/
theorem c9_schedule_buffer_counterexample :
    pyStrLen 0 ≠ 10 ∧
    schedule_buffer (fun _ => "pid") "text" (.str "twitter") (.int 0) =
      .call ⟨"pid", "text", true, none⟩ :=
  ⟨by decide, rfl⟩

/-- C9 (amended): `schedule_buffer` fails on the 10-digit assertion
before its network call for every nonzero integer timestamp whose
decimal representation is not 10 digits; it raises NotImplementedError
for every list-valued profile and for every nonempty string-valued
scheduled time; the falsy values 0 and "" instead request immediate
posting. -/
theorem c9_schedule_buffer_amended :
    ∀ (profiles : String → String) (text : String),
      (∀ n : Int, n ≠ 0 → pyStrLen n ≠ 10 →
        schedule_buffer profiles text (.str "twitter") (.int n) = .assertFail) ∧
      (∀ (l : List String) (sch : SchedArg),
        schedule_buffer profiles text (.list l) sch = .notImpl "") ∧
      (∀ s : String, s ≠ "" →
        schedule_buffer profiles text (.str "twitter") (.str s) =
          .notImpl "Please use a timestamp") ∧
      schedule_buffer profiles text (.str "twitter") (.int 0) =
        .call ⟨profiles "twitter", text, true, none⟩ ∧
      schedule_buffer profiles text (.str "twitter") (.str "") =
        .call ⟨profiles "twitter", text, true, none⟩ := by
  intro profiles text
  refine ⟨?_, fun l sch => rfl, ?_, rfl, rfl⟩
  · intro n hn0 hn10
    rw [schedule_buffer, if_pos (Or.inl rfl)]
    simp only [if_neg hn0, if_neg hn10]
  · intro s hs
    rw [schedule_buffer, if_pos (Or.inl rfl)]
    simp only [if_neg hs]

/-- Witness for C9 at concrete inputs: a 3-digit timestamp fails the
assertion, a list profile and a nonempty string time raise the
not-implemented error. -/
theorem c9_schedule_buffer_witness :
    schedule_buffer (fun _ => "p") "t" (.str "twitter") (.int 123) = .assertFail ∧
    schedule_buffer (fun _ => "p") "t" (.list ["twitter"]) (.int 0) = .notImpl "" ∧
    schedule_buffer (fun _ => "p") "t" (.str "twitter") (.str "soon") =
      .notImpl "Please use a timestamp" := by
  have h := c9_schedule_buffer_amended (fun _ => "p") "t"
  exact ⟨h.1 123 (by decide) (by decide), h.2.1 ["twitter"] (.int 0),
    h.2.2.1 "soon" (by decide)⟩

/-- Soundness of the slot-generation loop: under the `randint(1,59)`
range guarantee and with `dayBase` a UTC midnight, every timestamp the
loop produces sits in a configured hour — bumped by one when the current
hour equals it — and is no earlier than the current time
`dayBase + h*3600 + cm*60 + cs`. -/
theorem mkPostingTimesAux_sound (h dayBase : Nat) (rand : Nat → Nat × Nat)
    (cm cs : Nat)
    (hrand : ∀ k, 1 ≤ (rand k).1 ∧ (rand k).1 ≤ 59 ∧
      1 ≤ (rand k).2 ∧ (rand k).2 ≤ 59)
    (hday : dayBase % 86400 = 0) (hcm : cm ≤ 59) (hcs : cs ≤ 59) :
    ∀ (hrs : List Nat) (k : Nat) (ts : List Nat),
      mkPostingTimesAux h dayBase rand hrs k = some ts →
      ∀ t ∈ ts,
        (∃ cfg ∈ hrs, hourOf t = cfg ∨ (h = cfg ∧ hourOf t = cfg + 1)) ∧
        dayBase + h * 3600 + cm * 60 + cs ≤ t := by
  intro hrs
  induction hrs with
  | nil =>
    intro k ts hts t ht
    simp only [mkPostingTimesAux] at hts
    obtain rfl := Option.some.inj hts
    simp at ht
  | cons hour rest ih =>
    intro k ts hts t ht
    rw [mkPostingTimesAux] at hts
    by_cases hskip : h > hour
    · rw [if_pos hskip] at hts
      obtain ⟨⟨cfg, hcfg, hor⟩, hpast⟩ := ih k ts hts t ht
      exact ⟨⟨cfg, List.mem_cons_of_mem hour hcfg, hor⟩, hpast⟩
    · rw [if_neg hskip] at hts
      simp only [] at hts
      by_cases hlt : (if h = hour then hour + 1 else hour) ≤ 23
      · rw [if_pos hlt] at hts
        cases hrec : mkPostingTimesAux h dayBase rand rest (k + 1) with
        | none => rw [hrec] at hts; exact absurd hts (by simp)
        | some ts2 =>
          rw [hrec] at hts
          obtain rfl := Option.some.inj hts
          rcases List.mem_cons.mp ht with rfl | ht2
          · obtain ⟨hr1, hr2, hr3, hr4⟩ := hrand k
            refine ⟨⟨hour, List.mem_cons_self hour rest, ?_⟩, ?_⟩
            · by_cases hh : h = hour
              · refine Or.inr ⟨hh, ?_⟩
                rw [if_pos hh] at hlt ⊢
                unfold hourOf
                omega
              · refine Or.inl ?_
                rw [if_neg hh] at hlt ⊢
                unfold hourOf
                omega
            · by_cases hh : h = hour
              · rw [if_pos hh]; omega
              · rw [if_neg hh]; omega
          · obtain ⟨⟨cfg, hcfg, hor⟩, hpast⟩ := ih (k + 1) ts2 hrec t ht2
            exact ⟨⟨cfg, List.mem_cons_of_mem hour hcfg, hor⟩, hpast⟩
      · rw [if_neg hlt] at hts
        exact absurd hts (by simp)

/-- C3: for every current UTC hour and configured posting-hours list,
every timestamp produced by `get_posting_times` has an hour component
equal to a configured hour, or to that hour plus one exactly when the
current hour equals it, and no produced timestamp is earlier than the
generation time `dayBase + h*3600 + cm*60 + cs`. -/
theorem c3_posting_times_sound :
    ∀ (postingHrs : List Nat) (h dayBase cm cs : Nat)
      (rand : Nat → Nat × Nat) (ts : List Nat),
      (∀ k, 1 ≤ (rand k).1 ∧ (rand k).1 ≤ 59 ∧
        1 ≤ (rand k).2 ∧ (rand k).2 ≤ 59) →
      dayBase % 86400 = 0 → cm ≤ 59 → cs ≤ 59 →
      get_posting_times postingHrs h dayBase rand = some ts →
      ∀ t ∈ ts,
        (∃ cfg ∈ postingHrs, hourOf t = cfg ∨ (h = cfg ∧ hourOf t = cfg + 1)) ∧
        dayBase + h * 3600 + cm * 60 + cs ≤ t :=
  fun hrs h dayBase cm cs rand ts hrand hday hcm hcs hts =>
    mkPostingTimesAux_sound h dayBase rand cm cs hrand hday hcm hcs hrs 0 ts hts

/-- Witness for C3 at the spec's own scenario: hours [9,14,20] with
current hour 14 produce slots in hours 15 and 20; the first produced
timestamp 55830 (15:30:30) lands in hour 15 = 14+1 and is not before
14:00:00. -/
theorem c3_posting_times_witness :
    (∃ cfg ∈ [9, 14, 20], hourOf 55830 = cfg ∨ (14 = cfg ∧ hourOf 55830 = cfg + 1)) ∧
    0 + 14 * 3600 + 0 * 60 + 0 ≤ 55830 :=
  c3_posting_times_sound [9, 14, 20] 14 0 0 0 (fun _ => (30, 30)) [55830, 73830]
    (fun _ => by simp) (by decide) (by decide) (by decide) rfl 55830 (by decide)

/-- Splitting a newline-free chunk followed by a newline peels off
exactly one line. -/
theorem splitLinesAux_chunk :
    ∀ (u acc rest : List Char), '\n' ∉ u →
      splitLinesAux acc (u ++ '\n' :: rest) = (acc ++ u) :: splitLinesAux [] rest := by
  intro u
  induction u with
  | nil =>
    intro acc rest _
    simp [splitLinesAux]
  | cons c u2 ih =>
    intro acc rest hn
    have hc : c ≠ '\n' := fun h => hn (h ▸ List.mem_cons_self c u2)
    rw [List.cons_append, splitLinesAux, if_neg hc,
      ih (acc ++ [c]) rest (fun h => hn (List.mem_cons_of_mem c h))]
    simp

/-- The history file round-trips: writing URLs one per line and loading
them back with per-line strip is the identity on newline-free,
already-stripped URLs. -/
theorem loadPosted_writePosted :
    ∀ p : List String, (∀ v ∈ p, goodUrl v) → loadPosted (writePosted p) = p := by
  intro p
  induction p with
  | nil => intro _; rfl
  | cons u p2 ih =>
    intro hg
    obtain ⟨hn, htrim⟩ := hg u (List.mem_cons_self u p2)
    have hrest := ih (fun v hv => hg v (List.mem_cons_of_mem u hv))
    unfold loadPosted splitLines writePosted at hrest ⊢
    rw [List.map_cons, List.flatten_cons, List.append_assoc, List.singleton_append,
      splitLinesAux_chunk u.data [] _ hn, List.nil_append, List.map_cons, htrim,
      hrest]

/-- Whenever the scheduling loop reaches the end of the slot list, the
file it writes is exactly the final in-memory history, one URL per line,
and the marker written is the run's date string. -/
theorem scheduleLoop_completed_inv (profiles : String → String)
    (sched : Nat → Bool) (todayStr : String) (toSchedule : List Post) :
    ∀ (slots : List Int) (idx : Nat) (posted : List String) (calls : Nat)
      (p : List String) (c : List Char) (m : String),
      (scheduleLoop profiles sched todayStr toSchedule slots idx posted calls).1 =
        .completed p c m →
      c = writePosted p ∧ m = todayStr := by
  intro slots
  induction slots with
  | nil =>
    intro idx posted calls p c m h
    simp only [scheduleLoop, RunOutcome.completed.injEq] at h
    obtain ⟨rfl, rfl, rfl⟩ := h
    exact ⟨rfl, rfl⟩
  | cons s rest ih =>
    intro idx posted calls p c m h
    rw [scheduleLoop] at h
    cases hidx : toSchedule[idx]? with
    | none => rw [hidx] at h; simp at h
    | some post =>
      rw [hidx] at h
      simp only [] at h
      cases hsb : schedule_buffer profiles (post.title ++ " " ++ post.url)
          (.str "twitter") (.int s) with
      | notImpl msg => rw [hsb] at h; simp at h
      | assertFail => rw [hsb] at h; simp at h
      | call pl =>
        rw [hsb] at h
        exact ih (idx + 1)
          (if sched idx then posted ++ [post.url] else posted) (calls + 1) p c m h

/-- Whenever a run of `main` completes, the history file written is the
final in-memory history one URL per line, and the marker written is
today's date. -/
theorem mainRun_completed_inv :
    ∀ (w : World) (p : List String) (c : List Char) (m : String),
      (mainRun w).1 = .completed p c m → c = writePosted p ∧ m = w.todayStr := by
  intro w p c m h
  rw [mainRun] at h
  by_cases hm : w.markerFile = w.todayStr
  · rw [if_pos hm] at h; simp at h
  · rw [if_neg hm] at h
    by_cases hl : w.postingHours.length = w.feedlyCount + w.clickyCount
    · rw [if_pos hl] at h
      by_cases hf : w.feedItems.isEmpty
      · rw [if_pos hf] at h; simp at h
      · rw [if_neg hf] at h
        simp only [] at h
        cases hc : get_clicky_filter w.clickyItems with
        | error e => rw [hc] at h; simp at h
        | ok clicky =>
          rw [hc] at h
          simp only [] at h
          cases hp : get_posting_times w.postingHours w.hour w.dayBase w.rand with
          | none => rw [hp] at h; simp at h
          | some slots =>
            rw [hp] at h
            exact scheduleLoop_completed_inv w.profiles w.schedResponses
              w.todayStr _ _ _ _ _ p c m h
    · rw [if_neg hl] at h; simp at h

/-- A run whose marker file already holds today's date is a no-op exit
with zero network calls. -/
theorem mainRun_marker_noop :
    ∀ w : World, w.markerFile = w.todayStr → mainRun w = (.alreadyRan, 0) := by
  intro w h
  rw [mainRun, if_pos h]

/-- C1 (code bug): in the run `W1crash` the generator produces two time
slots while dedup leaves a single candidate, and the pairing loop then
reads `to_schedule[1]` past the end of the candidate list: the run dies
with an `IndexError` (after the two fetches and one scheduling call)
instead of silently leaving the excess slot unused. -/
theorem c1_pairing_loop_index_error :
    get_posting_times W1crash.postingHours W1crash.hour W1crash.dayBase W1crash.rand =
      some [1760265030, 1760268630] ∧
    (check_posted Article.url (get_feed_result W1crash.nowMs 1 W1crash.feedItems)
      W1crash.feedlyCount (loadPosted W1crash.postedFile)).length = 1 ∧
    get_clicky_filter W1crash.clickyItems = .ok [] ∧
    mainRun W1crash = (.indexError, 3) :=
  ⟨by decide, by decide, rfl, by decide⟩

/-- C6: whenever the posting-hours count differs from the sum of the two
per-source article counts, a run of `main` makes zero network calls, and
every run that passes the marker check dies on the configuration
assertion. -/
theorem c6_config_mismatch_guard :
    ∀ w : World,
      w.postingHours.length ≠ w.feedlyCount + w.clickyCount →
      (mainRun w).2 = 0 ∧
      (w.markerFile ≠ w.todayStr → mainRun w = (.configAssertFailed, 0)) := by
  intro w hlen
  rw [mainRun]
  by_cases hm : w.markerFile = w.todayStr
  · rw [if_pos hm]
    exact ⟨rfl, fun hne => absurd hm hne⟩
  · rw [if_neg hm, if_neg hlen]
    exact ⟨rfl, fun _ => rfl⟩

/-- Witness for C6 at a concrete run: zero posting hours against one
requested article is caught with no network calls. -/
theorem c6_config_mismatch_witness :
    (mainRun W6bad).2 = 0 ∧ mainRun W6bad = (.configAssertFailed, 0) := by
  have h := c6_config_mismatch_guard W6bad (by decide)
  exact ⟨h.1, h.2 (by decide)⟩

/-- Counterexample for C7: in `W7fFail` the marker does not match today,
the Feedly fetch fails, and nothing is persisted, so the second run of
the same UTC day sees the identical world: it is not a no-op exit, and
the two same-date runs together make two network fetches, not at most
one. -/
theorem c7_idempotency_counterexample :
    mainRun W7fFail = (.fetchError, 1) ∧
    (mainRun W7fFail).1 ≠ .alreadyRan ∧
    1 < (mainRun W7fFail).2 + (mainRun W7fFail).2 := by
  refine ⟨by decide, by decide, by decide⟩

/-- C7 (amended): if the marker equals today's date at start, the run is
a no-op exit with code 0 and zero network calls; a completed run writes
today's date as the new marker, so when the first of two same-date runs
completes its cycle the second is such a no-op — fetches and scheduling
happen at most once.  (If the first run fails before persisting, the
second run fetches again.) -/
theorem c7_idempotency_amended :
    ∀ (w w2 : World),
      (w.markerFile = w.todayStr → mainRun w = (.alreadyRan, 0)) ∧
      (∀ p c m, (mainRun w).1 = .completed p c m →
        m = w.todayStr ∧
        (w2.markerFile = m → w2.todayStr = w.todayStr →
          mainRun w2 = (.alreadyRan, 0))) := by
  intro w w2
  refine ⟨mainRun_marker_noop w, fun p c m h => ?_⟩
  have hm := (mainRun_completed_inv w p c m h).2
  exact ⟨hm, fun h2 h3 => mainRun_marker_noop w2 (by rw [h2, hm, h3])⟩

/-- Witness for C7 at concrete runs: a marker already holding today's
date makes the run a no-op, and the run following the completed cycle
`W7run` is a no-op. -/
theorem c7_idempotency_witness :
    mainRun W7aMarker = (.alreadyRan, 0) ∧ mainRun W7next = (.alreadyRan, 0) := by
  refine ⟨(c7_idempotency_amended W7aMarker W7aMarker).1 (by decide), ?_⟩
  exact (((c7_idempotency_amended W7run W7next).2 ["u1"] (writePosted ["u1"])
    "2026-10-12" (by decide)).2 (by decide) (by decide))

/-- C8: whenever a run of `main` completes, the file it writes holds the
final in-memory history one URL per line; loading that file back (as the
next run does) recovers exactly that history, provided each URL is
newline-free and stripped — as URLs are; and the dedup filter of the
next run never returns an article whose URL is in that history. -/
theorem c8_history_roundtrip :
    ∀ (w : World) (p : List String) (c : List Char) (m : String),
      (mainRun w).1 = .completed p c m →
      (∀ v ∈ p, goodUrl v) →
      c = writePosted p ∧
      loadPosted c = p ∧
      ∀ u ∈ p, ∀ (α : Type) (urlOf : α → String) (src : List α) (cnt : Nat),
        ∀ a ∈ check_posted urlOf src cnt (loadPosted c), urlOf a ≠ u := by
  intro w p c m h hg
  obtain ⟨hc, -⟩ := mainRun_completed_inv w p c m h
  have hrt : loadPosted c = p := by
    rw [hc]
    exact loadPosted_writePosted p hg
  refine ⟨hc, hrt, fun u hu α urlOf src cnt a ha hequ => ?_⟩
  have hnm := check_posted_not_mem urlOf src cnt (loadPosted c) a ha
  rw [hrt] at hnm
  exact hnm (hequ ▸ hu)

/-- Witness for C8 at the concrete completed run `W8run`: the URL "u1"
scheduled there round-trips through the history file, and the dedup
filter of a later run drops a candidate carrying it. -/
theorem c8_history_roundtrip_witness :
    loadPosted (writePosted ["u1"]) = ["u1"] ∧
    check_posted Post.url [Post.mk "t" "u1"] 1 (loadPosted (writePosted ["u1"])) =
      [] := by
  have h := c8_history_roundtrip W8run ["u1"] (writePosted ["u1"]) "2026-10-12"
    (by decide)
    (by intro v hv; rw [List.mem_singleton] at hv; subst hv
        exact ⟨by decide, by decide⟩)
  refine ⟨h.2.1, ?_⟩
  rw [h.2.1]
  decide
